import Mathlib

/-!
Verification of the promptmaxx two-stage edit pipeline (src/promptmaxx.py).

The pure core of the program is embedded shallowly:

* `parse_file_listings` models the scanning loop of
  `PromptMaxx.apply_file_listings`, i.e. Python's
  `re.finditer` over the pattern `([^\n]+?)\n(three backticks)([\s\S]*?)(three backticks)`
  followed by `fname.strip()` and `content.strip("\n")`.
* `applyListings` models the per-listing write loop of
  `apply_file_listings` (mkdir + write_text inside a per-iteration
  `try/except`), over an abstract filesystem: a writability oracle
  `w : String → Bool` stands for whether the mkdir+write pair succeeds for
  a given path, and the store `String → Option String` records contents.
* `json_loads` models Python's `json.loads` (the strict default decoder:
  values, objects, arrays, strings with escapes, numbers kept as their
  lexeme, the `NaN`/`Infinity` extensions); `call_picker` and
  `handle_paste` model `PromptMaxx.call_picker` / `handle_paste`.
* `editorPayload` models the payload construction in
  `PromptMaxx.call_editor`; `sel_add` / `sel_remove` model the selection
  mutations in `run_cmd` and `on_input_changed` (paths are taken already
  pathlib-normalized, so membership is plain string equality; the guard
  oracle `ok` stands for `Path(f).exists()` resp. `Path(f).is_file()`);
  `build_prompt` models `PromptMaxx.build_prompt`.
-/

/-- The backtick character (code point 96). -/
def btk : Char := Char.ofNat 96

/-- The characters stripped by Python's `str.strip()` on ASCII text. -/
def isPySpace (c : Char) : Bool :=
  c = ' ' || c = '\t' || c = '\n' || c = '\r' || c = '\x0b' || c = '\x0c'

/-- Python `s.strip()` on a character list (ASCII whitespace). -/
def pyStrip (cs : List Char) : List Char :=
  ((cs.dropWhile isPySpace).reverse.dropWhile isPySpace).reverse

/-- Python `s.strip("\n")` on a character list. -/
def stripNL (cs : List Char) : List Char :=
  ((cs.dropWhile (fun c => c = '\n')).reverse.dropWhile (fun c => c = '\n')).reverse

/-- Does the list start with three backticks?  (The literal
`(three backticks)` inside the regex of `apply_file_listings`.) -/
def isTripleAt : List Char → Bool
  | a :: b :: c :: _ => a = btk && b = btk && c = btk
  | _ => false

/-- Does the list contain three consecutive backticks anywhere? -/
def hasTriple : List Char → Bool
  | [] => false
  | c :: cs => isTripleAt (c :: cs) || hasTriple cs

/-- The lazy group `([\s\S]*?)` followed by the closing three backticks:
split the input at the first occurrence of three consecutive backticks,
returning the characters before it and the characters after it.
`none` when no such occurrence exists (the regex match fails). -/
def findClose : List Char → Option (List Char × List Char)
  | [] => none
  | c :: cs =>
    if isTripleAt (c :: cs) then some ([], cs.drop 2)
    else
      match findClose cs with
      | some (b, r) => some (c :: b, r)
      | none => none

/-- Attempt the regex `([^\n]+?)\n(three backticks)([\s\S]*?)(three backticks)`
anchored at the start of the input.  The first group is lazy but each of
its candidates must be followed by a newline, so it is forced to be the
(nonempty) run of non-newline characters up to the first newline.  On
success, returns ((raw path line, raw body), text after the match). -/
def tryMatchAt (cs : List Char) : Option ((List Char × List Char) × List Char) :=
  if (cs.takeWhile (fun c => c ≠ '\n')).isEmpty then none
  else
    match cs.dropWhile (fun c => c ≠ '\n') with
    | nl :: a :: b :: c :: body =>
      if nl = '\n' && a = btk && b = btk && c = btk then
        match findClose body with
        | some (bd, r) => some ((cs.takeWhile (fun c => c ≠ '\n'), bd), r)
        | none => none
      else none
    | _ => none

/-- Fuelled scanning loop of `re.finditer`: try an anchored match at each
position; on success emit it and continue right after the match, otherwise
advance one character. -/
def scanAux : Nat → List Char → List (List Char × List Char)
  | 0, _ => []
  | _ + 1, [] => []
  | fuel + 1, c :: cs =>
    match tryMatchAt (c :: cs) with
    | some (m, r) => m :: scanAux fuel r
    | none => scanAux fuel cs

/-- All non-overlapping matches of the listing regex, left to right
(`re.finditer`).  The fuel `cs.length` is sufficient because every step
consumes at least one character. -/
def finditer (cs : List Char) : List (List Char × List Char) :=
  scanAux cs.length cs

/-- The listing extraction of `PromptMaxx.apply_file_listings`:
`re.finditer` over the listing pattern, then
`match.group(1).strip(), match.group(2).strip("\n")` for each match. -/
def parse_file_listings (text : String) : List (String × String) :=
  (finditer text.data).map (fun m => (String.mk (pyStrip m.1), String.mk (stripNL m.2)))

/-- Per-listing result of the write loop of `apply_file_listings`: the
`write_log(f"Updated {fname}")` branch or the `show_exc(exc)` branch. -/
inductive ApplyOutcome where
  | written (path : String)
  | failed (path : String)
deriving Repr, DecidableEq

/-- The path an outcome reports on. -/
def ApplyOutcome.path : ApplyOutcome → String
  | .written p => p
  | .failed p => p

/-- One iteration of the write loop of `apply_file_listings`:
`Path(fname).parent.mkdir(parents=True, exist_ok=True)` then
`Path(fname).write_text(content)`, both inside `try/except`.  The oracle
`w` abstracts whether that mkdir+write pair succeeds for the path. -/
def apply_one (w : String → Bool) (fs : String → Option String)
    (l : String × String) : (String → Option String) × ApplyOutcome :=
  if w l.1 then
    (fun q => if q = l.1 then some l.2 else fs q, .written l.1)
  else
    (fs, .failed l.1)

/-- The write loop of `apply_file_listings` over already-parsed listings:
every listing is attempted in order; a failure is recorded and the loop
continues with the next listing. -/
def applyListings (w : String → Bool) (fs : String → Option String) :
    List (String × String) → (String → Option String) × List ApplyOutcome
  | [] => (fs, [])
  | l :: ls =>
    let s1 := apply_one w fs l
    let s2 := applyListings w s1.1 ls
    (s2.1, s1.2 :: s2.2)

/-- `PromptMaxx.apply_file_listings` end to end: parse the response text,
then run the write loop. -/
def apply_file_listings (w : String → Bool) (fs : String → Option String)
    (text : String) : (String → Option String) × List ApplyOutcome :=
  applyListings w fs (parse_file_listings text)

/-- JSON values as decoded by Python's `json.loads`.  Numbers are kept as
their source lexeme (the pipeline never arithmetizes them); objects keep
members in source order. -/
inductive PyJson where
  | jnull
  | jbool (flag : Bool)
  | jnum (lexeme : String)
  | jstr (text : String)
  | jarr (items : List PyJson)
  | jobj (pairs : List (String × PyJson))

/-- The JSON whitespace characters skipped by the decoder. -/
def skipWs (cs : List Char) : List Char :=
  cs.dropWhile (fun c => c = ' ' || c = '\t' || c = '\n' || c = '\r')

/-- Value of a hexadecimal digit (code points 48-57, 97-102, 65-70). -/
def hexVal (c : Char) : Option Nat :=
  let n := c.toNat
  if 48 ≤ n ∧ n ≤ 57 then some (n - 48)
  else if 97 ≤ n ∧ n ≤ 102 then some (n - 87)
  else if 65 ≤ n ∧ n ≤ 70 then some (n - 55)
  else none

/-- Single-character JSON string escapes. -/
def decodeEscape (c : Char) : Option Char :=
  if c = '"' then some '"'
  else if c = '\\' then some '\\'
  else if c = '/' then some '/'
  else if c = 'b' then some '\x08'
  else if c = 'f' then some '\x0c'
  else if c = 'n' then some '\n'
  else if c = 'r' then some '\r'
  else if c = 't' then some '\t'
  else none

/-- Body of a JSON string after the opening quote: characters up to the
closing quote, decoding escapes; the strict decoder rejects raw control
characters.  (Surrogate-pair recombination is not modelled; a lone
`\uXXXX` decodes to the code point itself.) -/
def parseStringBody : List Char → Option (List Char × List Char)
  | [] => none
  | '"' :: rest => some ([], rest)
  | '\\' :: 'u' :: a :: b :: c :: d :: rest => do
    let ha ← hexVal a
    let hb ← hexVal b
    let hc ← hexVal c
    let hd ← hexVal d
    let (s, r) ← parseStringBody rest
    pure (Char.ofNat (((ha * 16 + hb) * 16 + hc) * 16 + hd) :: s, r)
  | '\\' :: e :: rest => do
    let ce ← decodeEscape e
    let (s, r) ← parseStringBody rest
    pure (ce :: s, r)
  | c :: rest =>
    if c.toNat < 32 then none
    else do
      let (s, r) ← parseStringBody rest
      pure (c :: s, r)

/-- Decimal digit test. -/
def isDigitCh (c : Char) : Bool := '0' ≤ c && c ≤ '9'

/-- Optional fraction part `.digits` of a JSON number (matched greedily;
absent when the dot is not followed by a digit). -/
def parseFrac (cs : List Char) : List Char × List Char :=
  match cs with
  | '.' :: r =>
    let ds := r.takeWhile isDigitCh
    if ds.isEmpty then ([], cs) else ('.' :: ds, r.dropWhile isDigitCh)
  | _ => ([], cs)

/-- Optional exponent part `[eE][+-]?digits` of a JSON number. -/
def parseExp (cs : List Char) : List Char × List Char :=
  match cs with
  | e :: s :: r =>
    if e = 'e' || e = 'E' then
      if s = '+' || s = '-' then
        let ds := r.takeWhile isDigitCh
        if ds.isEmpty then ([], cs) else (e :: s :: ds, r.dropWhile isDigitCh)
      else
        let ds := (s :: r).takeWhile isDigitCh
        if ds.isEmpty then ([], cs) else (e :: ds, (s :: r).dropWhile isDigitCh)
    else ([], cs)
  | e :: r =>
    if e = 'e' || e = 'E' then
      let ds := r.takeWhile isDigitCh
      if ds.isEmpty then ([], cs) else (e :: ds, r.dropWhile isDigitCh)
    else ([], cs)
  | [] => ([], cs)

/-- JSON number lexeme `-?(0|[1-9][0-9]*)(.digits)?([eE][+-]?digits)?`,
as matched by the decoder's NUMBER_RE. -/
def parseNumberLexeme (cs : List Char) : Option (List Char × List Char) :=
  let sgn : List Char × List Char :=
    match cs with
    | '-' :: r => (['-'], r)
    | _ => ([], cs)
  match sgn.2 with
  | '0' :: r =>
    let f := parseFrac r
    let e := parseExp f.2
    some (sgn.1 ++ '0' :: (f.1 ++ e.1), e.2)
  | c :: r =>
    if isDigitCh c then
      let ds := r.takeWhile isDigitCh
      let r2 := r.dropWhile isDigitCh
      let f := parseFrac r2
      let e := parseExp f.2
      some (sgn.1 ++ c :: (ds ++ f.1 ++ e.1), e.2)
    else none
  | [] => none

mutual

/-- One JSON value, fuelled; mirrors the scanner of the strict decoder,
including the non-standard `NaN` / `Infinity` / `-Infinity` constants it
accepts by default. -/
def parseValue : Nat → List Char → Option (PyJson × List Char)
  | 0, _ => none
  | fuel + 1, cs =>
    match skipWs cs with
    | '[' :: rest => parseArrBody fuel rest
    | '"' :: rest => (parseStringBody rest).map (fun p => (.jstr (String.mk p.1), p.2))
    | 't' :: 'r' :: 'u' :: 'e' :: rest => some (.jbool true, rest)
    | 'f' :: 'a' :: 'l' :: 's' :: 'e' :: rest => some (.jbool false, rest)
    | 'n' :: 'u' :: 'l' :: 'l' :: rest => some (.jnull, rest)
    | 'N' :: 'a' :: 'N' :: rest => some (.jnum "NaN", rest)
    | 'I' :: 'n' :: 'f' :: 'i' :: 'n' :: 'i' :: 't' :: 'y' :: rest =>
      some (.jnum "Infinity", rest)
    | '-' :: 'I' :: 'n' :: 'f' :: 'i' :: 'n' :: 'i' :: 't' :: 'y' :: rest =>
      some (.jnum "-Infinity", rest)
    | rest =>
      match rest with
      | ob :: rest2 =>
        if ob = Char.ofNat 123 then parseObjBody fuel rest2
        else (parseNumberLexeme rest).map (fun p => (.jnum (String.mk p.1), p.2))
      | [] => none

/-- Array elements after the opening bracket. -/
def parseArrBody : Nat → List Char → Option (PyJson × List Char)
  | 0, _ => none
  | fuel + 1, cs =>
    match skipWs cs with
    | ']' :: rest => some (.jarr [], rest)
    | _ => do
      let (v, r) ← parseValue fuel cs
      parseArrRest fuel [v] r

/-- Remaining array elements, comma separated. -/
def parseArrRest : Nat → List PyJson → List Char → Option (PyJson × List Char)
  | 0, _, _ => none
  | fuel + 1, acc, cs =>
    match skipWs cs with
    | ']' :: rest => some (.jarr acc.reverse, rest)
    | ',' :: rest => do
      let (v, r) ← parseValue fuel rest
      parseArrRest fuel (v :: acc) r
    | _ => none

/-- Object members after the opening brace. -/
def parseObjBody : Nat → List Char → Option (PyJson × List Char)
  | 0, _ => none
  | fuel + 1, cs =>
    match skipWs cs with
    | cb :: rest =>
      if cb = Char.ofNat 125 then some (.jobj [], rest)
      else do
        let (kv, r) ← parseMember fuel cs
        parseObjRest fuel [kv] r
    | [] => none

/-- Remaining object members, comma separated. -/
def parseObjRest : Nat → List (String × PyJson) → List Char → Option (PyJson × List Char)
  | 0, _, _ => none
  | fuel + 1, acc, cs =>
    match skipWs cs with
    | cb :: rest =>
      if cb = Char.ofNat 125 then some (.jobj acc.reverse, rest)
      else if cb = ',' then do
        let (kv, r) ← parseMember fuel rest
        parseObjRest fuel (kv :: acc) r
      else none
    | [] => none

/-- One `"key": value` object member. -/
def parseMember : Nat → List Char → Option ((String × PyJson) × List Char)
  | 0, _ => none
  | fuel + 1, cs =>
    match skipWs cs with
    | '"' :: rest => do
      let (k, r1) ← parseStringBody rest
      match skipWs r1 with
      | ':' :: r2 => do
        let (v, r3) ← parseValue fuel r2
        pure ((String.mk k, v), r3)
      | _ => none
    | _ => none

end

/-- Python's `json.loads`: decode one value and require only whitespace
after it.  The fuel `length + 1` suffices because every recursive descent
step first consumes at least one character. -/
def json_loads (s : String) : Option PyJson :=
  match parseValue (s.length + 1) s.data with
  | some (v, rest) => if (skipWs rest).isEmpty then some v else none
  | none => none

/-- Is the decoded value a JSON array of strings (the shape the spec says
the Picker Stage requires)? -/
def isStringArray : PyJson → Bool
  | .jarr xs => xs.all (fun v => match v with | .jstr _ => true | _ => false)
  | _ => false

/-- `PromptMaxx.call_picker` after the generation call returned `raw`:
`json.loads(raw)` inside `try`, re-raised as
`ValueError("Picker did not return valid JSON array – got:\n" + raw)`
when the decoder raises.  No shape check is performed on the decoded
value. -/
def call_picker (raw : String) : Except String PyJson :=
  match json_loads raw with
  | some v => .ok v
  | none => .error ("Picker did not return valid JSON array – got:\n" ++ raw)

/-- Result of `PromptMaxx.handle_paste`: on a picker exception the error
is shown and the method returns (`aborted`, editor never invoked);
otherwise `call_editor` is invoked with the picked value (`applied`). -/
inductive PasteResult where
  | applied (picked : PyJson)
  | aborted (msg : String)

/-- `PromptMaxx.handle_paste` given the picker-stage response text. -/
def handle_paste (raw : String) : PasteResult :=
  match call_picker raw with
  | .ok v => .applied v
  | .error m => .aborted m

/-- The `read_text` closure inside `PromptMaxx.call_editor`:
`Path(f).read_text()` with any exception replaced by the empty string.
`rd f = none` stands for a read that raises. -/
def read_text (rd : String → Option String) (f : String) : String :=
  (rd f).getD ""

/-- The per-file blocks of the editor payload:
`f"### {f}\n{read_text(f)}" for f in files if Path(f).exists()`.
`ex` stands for `Path(f).exists()`. -/
def editorEntries (ex : String → Bool) (rd : String → Option String)
    (files : List String) : List String :=
  (files.filter ex).map (fun f => "### " ++ f ++ "\n" ++ read_text rd f)

/-- The editor payload: `"\n\n".join(...)` over the per-file blocks. -/
def editorPayload (ex : String → Bool) (rd : String → Option String)
    (files : List String) : String :=
  String.intercalate "\n\n" (editorEntries ex rd files)

/-- One `/a` addition in `PromptMaxx.run_cmd` / `on_input_changed`: the
path is appended iff the guard holds (`Path(f).exists()` resp.
`Path(f).is_file()`) and it is not already selected. -/
def sel_add (ok : String → Bool) (sel : List String) (f : String) : List String :=
  if ok f && !(sel.contains f) then sel ++ [f] else sel

/-- The `/r` removal in `PromptMaxx.run_cmd` / `on_input_changed`:
keep the entries whose string form is not in the removal set. -/
def sel_remove (rem : List String) (sel : List String) : List String :=
  sel.filter (fun p => !(rem.contains p))

/-- A selection-store mutation. -/
inductive SelOp where
  | add (f : String)
  | remove (rem : List String)

/-- Run a sequence of selection-store mutations. -/
def run_ops (ok : String → Bool) (sel : List String) : List SelOp → List String
  | [] => sel
  | .add f :: ops => run_ops ok (sel_add ok sel f) ops
  | .remove r :: ops => run_ops ok (sel_remove r sel) ops

/-- `PromptMaxx.build_prompt`: prefix, the tree snapshot when the
`show_tree_before_files` flag is set, then one `\n### path ###\ntext`
block per selected file.  A failing `read_text` aborts the whole render,
so the result is `none` when any selected file is unreadable. -/
def build_prompt (prefixText tree : String) (showTree : Bool)
    (rd : String → Option String) (sel : List String) : Option String :=
  (sel.mapM (fun p => (rd p).map (fun t => "\n### " ++ p ++ " ###\n" ++ t))).map
    (fun blocks => String.join ([prefixText, if showTree then tree else ""] ++ blocks))

/-- Padding after the first three characters does not change `isTripleAt`. -/
theorem isTripleAt_pad (a : Char) (body rest : List Char) :
    isTripleAt ((a :: body) ++ btk :: btk :: btk :: rest) =
      isTripleAt ((a :: body) ++ [btk, btk]) := by
  cases body with
  | nil => simp [isTripleAt]
  | cons b body2 =>
    cases body2 with
    | nil => simp [isTripleAt]
    | cons c body3 => simp [isTripleAt]

/-- Splitting `hasTriple` on a cons cell. -/
theorem hasTriple_cons_false (c : Char) (cs : List Char)
    (h : hasTriple (c :: cs) = false) :
    isTripleAt (c :: cs) = false ∧ hasTriple cs = false := by
  simpa [hasTriple] using h

/-- When the body contains no three consecutive backticks (even jointly
with the first two backticks of the closing fence), `findClose` splits
exactly at the appended closing fence. -/
theorem findClose_append (body rest : List Char)
    (h : hasTriple (body ++ [btk, btk]) = false) :
    findClose (body ++ btk :: btk :: btk :: rest) = some (body, rest) := by
  induction body with
  | nil => simp [findClose, isTripleAt]
  | cons a body ih =>
    have h2 := hasTriple_cons_false a (body ++ [btk, btk]) (by simpa using h)
    have hpad : isTripleAt (a :: (body ++ btk :: btk :: btk :: rest)) = false := by
      have hp := isTripleAt_pad a body rest
      simp only [List.cons_append] at hp
      rw [hp]
      simpa using h2.1
    simp [findClose, hpad, ih h2.2]

/-- A positive `isTripleAt` needs at least three characters. -/
theorem isTripleAt_length (l : List Char) (h : isTripleAt l = true) : 3 ≤ l.length := by
  cases l with
  | nil => simp [isTripleAt] at h
  | cons a t =>
    cases t with
    | nil => simp [isTripleAt] at h
    | cons b t2 =>
      cases t2 with
      | nil => simp [isTripleAt] at h
      | cons c t3 => simp

/-- `findClose` consumes at least the three closing backticks. -/
theorem findClose_length (cs : List Char) :
    ∀ b r, findClose cs = some (b, r) → r.length + 3 ≤ cs.length := by
  induction cs with
  | nil => intro b r h; simp [findClose] at h
  | cons c cs ih =>
    intro b r h
    simp only [findClose] at h
    split at h
    · next ht =>
      have hlen := isTripleAt_length _ ht
      injection h with h'
      injection h' with hb hr
      subst hr
      simp only [List.length_cons, List.length_drop] at *
      omega
    · cases hfc : findClose cs with
      | none => rw [hfc] at h; simp at h
      | some br =>
        rw [hfc] at h
        obtain ⟨b2, r2⟩ := br
        simp only [Option.some.injEq, Prod.mk.injEq] at h
        obtain ⟨hb, hr⟩ := h
        subst hr
        have := ih b2 r2 hfc
        simp only [List.length_cons]
        omega

/-- A successful anchored match consumes the path line, the newline, the
opening fence, the body and the closing fence: at least eight characters. -/
theorem tryMatchAt_length (cs : List Char) (m : List Char × List Char) (r : List Char)
    (h : tryMatchAt cs = some (m, r)) : r.length + 8 ≤ cs.length := by
  have hlen : (cs.takeWhile (fun c => c ≠ '\n')).length
      + (cs.dropWhile (fun c => c ≠ '\n')).length = cs.length := by
    conv_rhs => rw [← List.takeWhile_append_dropWhile (p := fun c => c ≠ '\n') (l := cs)]
    rw [List.length_append]
  unfold tryMatchAt at h
  cases htw : cs.takeWhile (fun c => c ≠ '\n') with
  | nil => rw [htw] at h; simp at h
  | cons x xs =>
    rw [htw] at h
    simp only [List.isEmpty_cons, Bool.false_eq_true, if_false] at h
    cases hdw : cs.dropWhile (fun c => c ≠ '\n') with
    | nil => rw [hdw] at h; simp at h
    | cons nl t1 =>
      rw [hdw] at h
      cases t1 with
      | nil => simp at h
      | cons a t2 =>
        cases t2 with
        | nil => simp at h
        | cons b t3 =>
          cases t3 with
          | nil => simp at h
          | cons c body =>
            split at h
            · next u nl2 a2 b2 c2 body2 heq =>
              simp only [List.cons.injEq] at heq
              obtain ⟨rfl, rfl, rfl, rfl, rfl⟩ := heq
              split at h
              · cases hfc : findClose body with
                | none => rw [hfc] at h; simp at h
                | some br =>
                  rw [hfc] at h
                  obtain ⟨bd, r2⟩ := br
                  simp only [Option.some.injEq, Prod.mk.injEq] at h
                  obtain ⟨hm, hr⟩ := h
                  subst hr
                  have h3 := findClose_length body bd r2 hfc
                  rw [htw, hdw] at hlen
                  simp only [List.length_cons] at hlen
                  omega
              · simp at h
            · next u hfalse => exact absurd rfl (hfalse nl a b c body)

/-- The scanning loop is fuel-insensitive once the fuel covers the input
length, because every step consumes at least one character. -/
theorem scanAux_fuel (fuel1 : Nat) :
    ∀ fuel2 cs, cs.length ≤ fuel1 → cs.length ≤ fuel2 →
      scanAux fuel1 cs = scanAux fuel2 cs := by
  induction fuel1 with
  | zero =>
    intro fuel2 cs h1 h2
    have hnil : cs = [] := List.length_eq_zero.mp (Nat.le_zero.mp h1)
    subst hnil
    cases fuel2 <;> simp [scanAux]
  | succ f ih =>
    intro fuel2 cs h1 h2
    cases cs with
    | nil => cases fuel2 <;> simp [scanAux]
    | cons c cs =>
      cases fuel2 with
      | zero => simp at h2
      | succ f2 =>
        simp only [scanAux]
        cases htm : tryMatchAt (c :: cs) with
        | none =>
          simp only [List.length_cons] at h1 h2
          exact ih f2 cs (by omega) (by omega)
        | some mr =>
          obtain ⟨m, r⟩ := mr
          have hr := tryMatchAt_length (c :: cs) m r htm
          simp only [List.length_cons] at h1 h2 hr
          show m :: scanAux f r = m :: scanAux f2 r
          rw [ih f2 r (by omega) (by omega)]

/-- A well-formed listing at the head of the input is matched exactly:
the raw path is the line before the fence, the raw body is everything up
to the appended closing fence, and scanning resumes after that fence. -/
theorem finditer_cons (line body rest : List Char)
    (hne : line ≠ []) (hnl : ∀ c ∈ line, c ≠ '\n')
    (hb : hasTriple (body ++ [btk, btk]) = false) :
    finditer (line ++ '\n' :: btk :: btk :: btk :: (body ++ btk :: btk :: btk :: rest)) =
      (line, body) :: finditer rest := by
  have htw : (line ++ '\n' :: btk :: btk :: btk :: (body ++ btk :: btk :: btk :: rest)).takeWhile
      (fun c => c ≠ '\n') = line := by
    rw [List.takeWhile_append_of_pos (by intro a ha; simpa using hnl a ha)]
    simp
  have hdw : (line ++ '\n' :: btk :: btk :: btk :: (body ++ btk :: btk :: btk :: rest)).dropWhile
      (fun c => c ≠ '\n') = '\n' :: btk :: btk :: btk :: (body ++ btk :: btk :: btk :: rest) := by
    rw [List.dropWhile_append_of_pos (by intro a ha; simpa using hnl a ha)]
    simp
  have htm : tryMatchAt (line ++ '\n' :: btk :: btk :: btk :: (body ++ btk :: btk :: btk :: rest))
      = some ((line, body), rest) := by
    unfold tryMatchAt
    rw [htw, hdw]
    cases line with
    | nil => exact absurd rfl hne
    | cons x xs =>
      show (match findClose (body ++ btk :: btk :: btk :: rest) with
        | some (bd, r) => some (((x :: xs : List Char), bd), r)
        | none => none) = some ((x :: xs, body), rest)
      rw [findClose_append body rest hb]
  cases hl : line with
  | nil => exact absurd hl hne
  | cons x xs =>
    subst hl
    have hlen : rest.length ≤ (xs ++ '\n' :: btk :: btk :: btk ::
        (body ++ btk :: btk :: btk :: rest)).length := by
      simp [List.length_append]
      omega
    show scanAux (((x :: xs) ++ '\n' :: btk :: btk :: btk ::
        (body ++ btk :: btk :: btk :: rest)).length) _ = _
    rw [List.cons_append, List.length_cons]
    show (match tryMatchAt ((x :: xs) ++ '\n' :: btk :: btk :: btk ::
        (body ++ btk :: btk :: btk :: rest)) with
      | some (m, r) => m :: scanAux (xs ++ '\n' :: btk :: btk :: btk ::
          (body ++ btk :: btk :: btk :: rest)).length r
      | none => scanAux (xs ++ '\n' :: btk :: btk :: btk ::
          (body ++ btk :: btk :: btk :: rest)).length
          (xs ++ '\n' :: btk :: btk :: btk :: (body ++ btk :: btk :: btk :: rest))) = _
    rw [htm]
    show ((x :: xs, body) :: scanAux (xs ++ '\n' :: btk :: btk :: btk ::
        (body ++ btk :: btk :: btk :: rest)).length rest) = _
    rw [scanAux_fuel _ rest.length rest hlen (Nat.le_refl _)]
    rfl

/-- `String.append` concatenates the underlying character lists. -/
theorem data_append (s t : String) : (s ++ t).data = s.data ++ t.data := rfl

/-- String-level form of `finditer_cons`: a well-formed listing at the
head of the response text parses to its trimmed path line and its body
stripped of leading and trailing newlines, and parsing continues in the
text right after the closing fence. -/
theorem parse_file_listings_append (path body rest : String)
    (hne : path.data ≠ []) (hnl : ∀ c ∈ path.data, c ≠ '\n')
    (hb : hasTriple (body.data ++ [btk, btk]) = false) :
    parse_file_listings (path ++ "\n```" ++ body ++ "```" ++ rest) =
      (String.mk (pyStrip path.data), String.mk (stripNL body.data)) ::
        parse_file_listings rest := by
  have hdata : (path ++ "\n```" ++ body ++ "```" ++ rest).data
      = path.data ++ '\n' :: btk :: btk :: btk ::
          (body.data ++ btk :: btk :: btk :: rest.data) := by
    rw [data_append, data_append, data_append, data_append]
    rw [show ("\n```" : String).data = '\n' :: btk :: btk :: btk :: [] from by decide]
    rw [show ("```" : String).data = btk :: btk :: btk :: [] from by decide]
    simp only [List.append_assoc, List.cons_append, List.nil_append]
  unfold parse_file_listings
  rw [hdata, finditer_cons path.data body.data rest.data hne hnl hb]
  simp

/-- The outcome of one write attempt always reports the listing's path. -/
theorem apply_one_path (w : String → Bool) (fs : String → Option String)
    (l : String × String) : ((apply_one w fs l).2).path = l.1 := by
  unfold apply_one
  split <;> rfl

/-- Every listing yields exactly one outcome. -/
theorem applyListings_length (w : String → Bool) :
    ∀ (ls : List (String × String)) (fs : String → Option String),
      (applyListings w fs ls).2.length = ls.length := by
  intro ls
  induction ls with
  | nil => intro fs; rfl
  | cons l ls ih => intro fs; simp [applyListings, ih]

/-- Outcomes come in parse order: their paths are the listings' paths. -/
theorem applyListings_paths (w : String → Bool) :
    ∀ (ls : List (String × String)) (fs : String → Option String),
      (applyListings w fs ls).2.map ApplyOutcome.path = ls.map Prod.fst := by
  intro ls
  induction ls with
  | nil => intro fs; rfl
  | cons l ls ih => intro fs; simp [applyListings, apply_one_path, ih]

/-- Claim C2: the Applier processes all N parsed listings in parse order,
producing exactly N per-listing outcomes in that order; a failure on one
listing is recorded for it and the remaining listings are still
attempted, so with an unwritable first path and a writable second path
the outcomes are `[failed, written]` and the second file is written. -/
theorem applier_processes_all_listings (w : String → Bool) (fs : String → Option String)
    (ls : List (String × String)) (p1 c1 p2 c2 : String)
    (h1 : w p1 = false) (h2 : w p2 = true) :
    (applyListings w fs ls).2.length = ls.length
    ∧ (applyListings w fs ls).2.map ApplyOutcome.path = ls.map Prod.fst
    ∧ (applyListings w fs [(p1, c1), (p2, c2)]).2 = [.failed p1, .written p2]
    ∧ (applyListings w fs [(p1, c1), (p2, c2)]).1 p2 = some c2 := by
  refine ⟨applyListings_length w ls fs, applyListings_paths w ls fs, ?_, ?_⟩
  · simp [applyListings, apply_one, h1, h2]
  · simp [applyListings, apply_one, h1, h2]

/-- Witness for C2 at a concrete writability oracle and batch. -/
theorem applier_processes_all_listings_witness :
    ((fun p => p == "b") "a" = false) ∧ ((fun p => p == "b") "b" = true)
    ∧ ((applyListings (fun p => p == "b") (fun _ => none) [("x", "1")]).2.length
        = [("x", "1")].length
      ∧ (applyListings (fun p => p == "b") (fun _ => none) [("x", "1")]).2.map ApplyOutcome.path
        = [("x", "1")].map Prod.fst
      ∧ (applyListings (fun p => p == "b") (fun _ => none) [("a", "A"), ("b", "B")]).2
        = [.failed "a", .written "b"]
      ∧ (applyListings (fun p => p == "b") (fun _ => none) [("a", "A"), ("b", "B")]).1 "b"
        = some "B") :=
  ⟨by decide, by decide,
    applier_processes_all_listings (fun p => p == "b") (fun _ => none) [("x", "1")]
      "a" "A" "b" "B" (by decide) (by decide)⟩

/-- Counterexample to claim C7: a picked path that names no existing file
is omitted from the editor payload entirely (the `if Path(f).exists()`
filter drops it), rather than being represented with empty content.
With files `["a.txt", "b.txt"]` and only `b.txt` existing, the payload
has a single block, none of which is `a.txt`'s. -/
theorem missing_file_omitted_from_payload :
    editorEntries (fun f => f == "b.txt")
        (fun f => if f == "b.txt" then some "B" else none) ["a.txt", "b.txt"]
      = ["### b.txt\nB"]
    ∧ "### a.txt\n" ∉ editorEntries (fun f => f == "b.txt")
        (fun f => if f == "b.txt" then some "B" else none) ["a.txt", "b.txt"]
    ∧ (editorEntries (fun f => f == "b.txt")
        (fun f => if f == "b.txt" then some "B" else none) ["a.txt", "b.txt"]).length
      ≠ (["a.txt", "b.txt"]).length := by
  refine ⟨by decide, by decide, by decide⟩

/-- Claim C7 (amended): a picked path whose file does not exist is
omitted from the editor payload: prepending it to the picked list leaves
both the block list and the joined payload unchanged. -/
theorem missing_path_leaves_payload_unchanged (ex : String → Bool)
    (rd : String → Option String) (files : List String) (f : String)
    (h : ex f = false) :
    editorEntries ex rd (f :: files) = editorEntries ex rd files
    ∧ editorPayload ex rd (f :: files) = editorPayload ex rd files := by
  constructor
  · simp [editorEntries, List.filter_cons, h]
  · simp [editorPayload, editorEntries, List.filter_cons, h]

/-- Witness for the amended C7 at a concrete store. -/
theorem missing_path_leaves_payload_unchanged_witness :
    ((fun f => f == "b.txt") "a.txt" = false)
    ∧ (editorEntries (fun f => f == "b.txt") (fun _ => some "B") ("a.txt" :: ["b.txt"])
        = editorEntries (fun f => f == "b.txt") (fun _ => some "B") ["b.txt"]
      ∧ editorPayload (fun f => f == "b.txt") (fun _ => some "B") ("a.txt" :: ["b.txt"])
        = editorPayload (fun f => f == "b.txt") (fun _ => some "B") ["b.txt"]) :=
  ⟨by decide,
    missing_path_leaves_payload_unchanged (fun f => f == "b.txt") (fun _ => some "B")
      ["b.txt"] "a.txt" (by decide)⟩

/-- Claim C10: a picked path whose file exists but whose read raises is
represented in the editor payload by a block with empty content — the
`read_text` closure catches the exception and substitutes `""` — so the
block list contains exactly the header-only block for that path. -/
theorem unreadable_picked_file_gets_empty_block (ex : String → Bool)
    (rd : String → Option String) (files : List String) (f : String)
    (hmem : f ∈ files) (hex : ex f = true) (hrd : rd f = none) :
    ("### " ++ f ++ "\n") ∈ editorEntries ex rd files := by
  have hf : f ∈ files.filter ex := List.mem_filter.mpr ⟨hmem, hex⟩
  have h2 : ("### " ++ f ++ "\n" ++ read_text rd f) ∈ editorEntries ex rd files :=
    List.mem_map_of_mem _ hf
  simpa [read_text, hrd] using h2

/-- Witness for C10 at a concrete store. -/
theorem unreadable_picked_file_gets_empty_block_witness :
    ("u.txt" ∈ ["u.txt"]) ∧ ((fun _ : String => true) "u.txt" = true)
    ∧ ((fun _ : String => (none : Option String)) "u.txt" = none)
    ∧ ("### " ++ "u.txt" ++ "\n")
      ∈ editorEntries (fun _ => true) (fun _ => none) ["u.txt"] :=
  ⟨by decide, by decide, by decide,
    unreadable_picked_file_gets_empty_block (fun _ => true) (fun _ => none) ["u.txt"]
      "u.txt" (by decide) (by decide) (by decide)⟩

/-- Adding a path already selected (or one failing the guard) leaves the
selection unchanged; hence the double add collapses. -/
theorem sel_add_idem (ok : String → Bool) (sel : List String) (f : String) :
    sel_add ok (sel_add ok sel f) f = sel_add ok sel f := by
  unfold sel_add
  by_cases hmem : f ∈ sel
  · have hc : sel.contains f = true := by simp [List.contains, List.elem_eq_mem, hmem]
    simp [hc, hmem]
  · by_cases hok : ok f = true
    · have hc : sel.contains f = false := by simp [List.contains, List.elem_eq_mem, hmem]
      have hc2 : (sel ++ [f]).contains f = true := by simp [List.contains, List.elem_eq_mem]
      simp [hok, hc, hc2, hmem]
    · simp only [Bool.not_eq_true] at hok
      simp [hok]

/-- `sel_add` preserves freedom from duplicates. -/
theorem sel_add_nodup (ok : String → Bool) (sel : List String) (f : String)
    (h : sel.Nodup) : (sel_add ok sel f).Nodup := by
  unfold sel_add
  split
  · next hcond =>
    have hf : f ∉ sel := by
      rcases Bool.and_eq_true .. |>.mp hcond with ⟨h1, h2⟩
      simp only [Bool.not_eq_true', List.contains, List.elem_eq_mem,
        decide_eq_false_iff_not] at h2
      exact h2
    simp [List.nodup_append, h, hf]
  · exact h

/-- `sel_remove` preserves freedom from duplicates. -/
theorem sel_remove_nodup (rem : List String) (sel : List String)
    (h : sel.Nodup) : (sel_remove rem sel).Nodup :=
  h.filter _

/-- A selection evolved from a duplicate-free start stays duplicate-free. -/
theorem run_ops_nodup (ok : String → Bool) :
    ∀ (ops : List SelOp) (sel : List String), sel.Nodup → (run_ops ok sel ops).Nodup := by
  intro ops
  induction ops with
  | nil => intro sel h; exact h
  | cons op ops ih =>
    intro sel h
    cases op with
    | add f => exact ih _ (sel_add_nodup ok sel f h)
    | remove r => exact ih _ (sel_remove_nodup r sel h)

/-- Counterexample to claim C8: `add(p); add(p)` on an empty store does
not always yield a store of size 1 — the add is guarded by
`Path(f).exists()` (resp. `is_file()`), so for a path that fails the
guard both adds are no-ops and the store stays empty. -/
theorem add_twice_nonexistent_path_empty :
    sel_add (fun _ => false) (sel_add (fun _ => false) [] "p") "p" = []
    ∧ (sel_add (fun _ => false) (sel_add (fun _ => false) [] "p") "p").length ≠ 1 := by
  refine ⟨by decide, by decide⟩

/-- Claim C8 (amended): adding is idempotent and the selection store
never contains duplicates after any sequence of add and remove
operations starting from the empty store; `add(p); add(p)` on the empty
store yields a store of size 1 provided `p` passes the on-disk guard
(for a path failing the guard the store stays empty, refuting the
unconditional size-1 claim). -/
theorem selection_store_invariants (ok : String → Bool) (sel : List String)
    (q p : String) (ops : List SelOp) (hp : ok p = true) :
    sel_add ok (sel_add ok sel q) q = sel_add ok sel q
    ∧ (run_ops ok [] ops).Nodup
    ∧ (sel_add ok (sel_add ok [] p) p).length = 1 := by
  refine ⟨sel_add_idem ok sel q, run_ops_nodup ok ops [] List.nodup_nil, ?_⟩
  rw [sel_add_idem]
  simp [sel_add, hp]

/-- Witness for the amended C8 at a concrete guard. -/
theorem selection_store_invariants_witness :
    ((fun _ : String => true) "p" = true)
    ∧ (sel_add (fun _ => true) (sel_add (fun _ => true) ["x"] "q") "q"
        = sel_add (fun _ => true) ["x"] "q"
      ∧ (run_ops (fun _ => true) [] [SelOp.add "p", SelOp.add "p"]).Nodup
      ∧ (sel_add (fun _ => true) (sel_add (fun _ => true) [] "p") "p").length = 1) :=
  ⟨by decide,
    selection_store_invariants (fun _ => true) ["x"] "q" "p"
      [SelOp.add "p", SelOp.add "p"] (by decide)⟩

/-- Claim C9: the rendered prompt is the prefix text, then the tree
snapshot exactly when the show-tree flag is set, then one delimited
block per selected path in selection order; for the selection `[a, b]`
the `a` block comes strictly before the `b` block, both after the
prefix. -/
theorem build_prompt_structure (prefixText tree : String) (showTree : Bool)
    (rd : String → Option String) (a b X Y : String)
    (ha : rd a = some X) (hb : rd b = some Y) :
    build_prompt prefixText tree showTree rd [a, b] =
      some (prefixText ++ (if showTree then tree else "")
        ++ ("\n### " ++ a ++ " ###\n" ++ X) ++ ("\n### " ++ b ++ " ###\n" ++ Y)) := by
  simp only [build_prompt, List.mapM_cons, List.mapM_nil, ha, hb, Option.map_some,
    Option.pure_def, Option.bind_some, Option.bind_eq_bind]
  rfl

/-- Witness for C9 at concrete selection contents. -/
theorem build_prompt_structure_witness :
    ((fun p : String => if p == "a" then some "X" else some "Y") "a" = some "X")
    ∧ ((fun p : String => if p == "a" then some "X" else some "Y") "b" = some "Y")
    ∧ build_prompt "PRE" "TREE" true
        (fun p => if p == "a" then some "X" else some "Y") ["a", "b"] =
      some ("PRE" ++ (if true then "TREE" else "")
        ++ ("\n### " ++ "a" ++ " ###\n" ++ "X") ++ ("\n### " ++ "b" ++ " ###\n" ++ "Y")) :=
  ⟨by decide, by decide,
    build_prompt_structure "PRE" "TREE" true
      (fun p => if p == "a" then some "X" else some "Y") "a" "b" "X" "Y"
      (by decide) (by decide)⟩

/-- Counterexample to claim C1: the picker does not fail on every
response that is not a JSON array of strings.  `"[1, 2]"` decodes as a
JSON array of numbers, `json.loads` succeeds, no error is raised, and
the editor stage is invoked with that non-string-array value. -/
theorem picker_accepts_non_string_array :
    json_loads "[1, 2]" = some (.jarr [.jnum "1", .jnum "2"])
    ∧ isStringArray (.jarr [.jnum "1", .jnum "2"]) = false
    ∧ handle_paste "[1, 2]" = .applied (.jarr [.jnum "1", .jnum "2"]) :=
  ⟨rfl, rfl, rfl⟩

/-- Claim C1 (amended): the Picker Stage fails — raising an error that
carries the raw response text — if and only if the response text is not
valid JSON at all; any successfully decoded JSON value (whatever its
shape) becomes the PickerResult and the Editor Stage is invoked with it,
while on failure the Editor Stage is never invoked. -/
theorem picker_fails_iff_invalid_json (raw : String) :
    (json_loads raw = none
      ∧ handle_paste raw
          = .aborted ("Picker did not return valid JSON array – got:\n" ++ raw))
    ∨ (∃ v, json_loads raw = some v ∧ handle_paste raw = .applied v) := by
  cases h : json_loads raw with
  | none => exact Or.inl ⟨rfl, by simp [handle_paste, call_picker, h]⟩
  | some v => exact Or.inr ⟨v, rfl, by simp [handle_paste, call_picker, h]⟩

/-- Counterexample to claim C3: the capture is `content.strip("\n")`,
which removes ALL leading and trailing newline characters, not only the
record's own trailing newline.  Here the text between the fence-open
line and the fence-close token is `"line1\n\n"`; removing only the
record's own trailing newline would give `"line1\n"`, but the parsed
content is `"line1"` — the trailing blank line was stripped too (and a
leading blank line would likewise be stripped). -/
theorem content_extra_newlines_also_stripped :
    parse_file_listings "p\n```\nline1\n\n```" = [("p", "line1")]
    ∧ ("line1" : String) ≠ "line1\n"
    ∧ parse_file_listings "p\n```\n\nline1\n```" = [("p", "line1")] := by
  refine ⟨by decide, by decide, by decide⟩

/-- Claim C3 (amended): the captured content is the raw regex body — the
characters between the opening and closing triple backticks — with all
leading and trailing newline characters removed (Python `strip("\n")`);
no interior character is altered and no escape is interpreted, and the
round-trip example parses as stated. -/
theorem listing_content_is_body_stripped_of_newlines (path body rest : String)
    (hne : path.data ≠ []) (hnl : ∀ c ∈ path.data, c ≠ '\n')
    (hb : hasTriple (body.data ++ [btk, btk]) = false) :
    parse_file_listings (path ++ "\n```" ++ body ++ "```" ++ rest) =
      (String.mk (pyStrip path.data), String.mk (stripNL body.data)) ::
        parse_file_listings rest
    ∧ parse_file_listings "foo/bar.ext\n```\nline1\nline2\n```\n"
        = [("foo/bar.ext", "line1\nline2")] :=
  ⟨parse_file_listings_append path body rest hne hnl hb, by decide⟩

/-- Witness for the amended C3 at the round-trip input. -/
theorem listing_content_is_body_stripped_of_newlines_witness :
    (("foo/bar.ext" : String).data ≠ [])
    ∧ (∀ c ∈ ("foo/bar.ext" : String).data, c ≠ '\n')
    ∧ (hasTriple (("\nline1\nline2\n" : String).data ++ [btk, btk]) = false)
    ∧ (parse_file_listings ("foo/bar.ext" ++ "\n```" ++ "\nline1\nline2\n" ++ "```" ++ "") =
        (String.mk (pyStrip ("foo/bar.ext" : String).data),
          String.mk (stripNL ("\nline1\nline2\n" : String).data)) :: parse_file_listings ""
      ∧ parse_file_listings "foo/bar.ext\n```\nline1\nline2\n```\n"
          = [("foo/bar.ext", "line1\nline2")]) :=
  ⟨by decide, by decide, by decide,
    listing_content_is_body_stripped_of_newlines "foo/bar.ext" "\nline1\nline2\n" ""
      (by decide) (by decide) (by decide)⟩

/-- Counterexample to claim C4: a candidate whose path line consists of
spaces only is not rejected — the regex `[^\n]+?` matches the spaces and
`strip()` then empties the group, so a listing with the empty string as
its path is produced. -/
theorem whitespace_path_line_still_produces_listing :
    parse_file_listings "   \n```\nbody\n```" = [("", "body")]
    ∧ parse_file_listings "   \n```\nbody\n```" ≠ [] := by
  refine ⟨by decide, by decide⟩

/-- Claim C4 (amended): the path line is trimmed of leading and trailing
whitespace, but a path line that is empty after trimming still produces
a listing whose path is the empty string — the rejection the spec
describes happens only later, as an IO failure when the write is
attempted. -/
theorem path_line_trimmed_but_not_rejected :
    parse_file_listings "  foo  \n```\nx\n```" = [("foo", "x")]
    ∧ parse_file_listings "   \n```\nbody\n```" = [("", "body")] := by
  refine ⟨by decide, by decide⟩

/-- Counterexample to claim C5: three backticks that are NOT alone on a
line do terminate the body.  In the input below the first body is cut at
the mid-line `a``` occurrence (yielding content `"a"`), and the rest of
that line is rescanned, producing a second listing — whereas under the
claimed grammar the only listing would be `("p", "a``` tail\nq")`. -/
theorem midline_triple_backtick_terminates_body :
    parse_file_listings "p\n```\na``` tail\nq\n```\nb\n```" = [("p", "a"), ("q", "b")]
    ∧ parse_file_listings "p\n```\na``` tail\nq\n```\nb\n```" ≠ [("p", "a``` tail\nq")] := by
  refine ⟨by decide, by decide⟩

/-- Claim C5 (amended): the body is the minimal run of characters up to
the FIRST occurrence of three consecutive backticks anywhere in the
text — the fence-close need not be alone on a line — and the close
consumes exactly its three backtick characters, not the rest of its
line.  A body whose intended content contains a bare triple-backtick
line is still truncated at that line. -/
theorem body_ends_at_first_close_fence (path pre post : String)
    (hne : path.data ≠ []) (hnl : ∀ c ∈ path.data, c ≠ '\n')
    (hb : hasTriple (pre.data ++ [btk, btk]) = false) :
    parse_file_listings (path ++ "\n```" ++ pre ++ "```" ++ post) =
      (String.mk (pyStrip path.data), String.mk (stripNL pre.data)) ::
        parse_file_listings post
    ∧ parse_file_listings "p\n```\nline1\n```\nrest of intended content\n```"
        = [("p", "line1")] :=
  ⟨parse_file_listings_append path pre post hne hnl hb, by decide⟩

/-- Witness for the amended C5: the body stops at the appended close even
when the text continues on the very same line. -/
theorem body_ends_at_first_close_fence_witness :
    (("p" : String).data ≠ [])
    ∧ (∀ c ∈ ("p" : String).data, c ≠ '\n')
    ∧ (hasTriple (("\na\n" : String).data ++ [btk, btk]) = false)
    ∧ (parse_file_listings ("p" ++ "\n```" ++ "\na\n" ++ "```" ++ " same line tail") =
        (String.mk (pyStrip ("p" : String).data),
          String.mk (stripNL ("\na\n" : String).data)) ::
          parse_file_listings " same line tail"
      ∧ parse_file_listings "p\n```\nline1\n```\nrest of intended content\n```"
          = [("p", "line1")]) :=
  ⟨by decide, by decide, by decide,
    body_ends_at_first_close_fence "p" "\na\n" " same line tail"
      (by decide) (by decide) (by decide)⟩

/-- Counterexample to claim C6: a language tag after the opening
backticks is captured into the content.  For `"foo\n```python\n..."` the
parsed content starts with the tag `python`. -/
theorem language_tag_lands_in_content :
    parse_file_listings "foo\n```python\nbody\n```\n" = [("foo", "python\nbody")]
    ∧ ("python" : String).data.isPrefixOf ("python\nbody" : String).data = true := by
  refine ⟨by decide, by decide⟩

/-- Claim C6 (amended): a language tag on the fence-open line is NOT
ignored — the fence-open token is exactly three backticks, so the tag
text is captured into the body and, surviving the newline strip, becomes
the first line of the listing's content; without a tag the content is
just the fenced lines. -/
theorem language_tag_not_ignored :
    parse_file_listings "foo\n```python\nbody\n```\n" = [("foo", "python" ++ "\nbody")]
    ∧ parse_file_listings "foo\n```\nbody\n```\n" = [("foo", "body")] := by
  refine ⟨by decide, by decide⟩
